/-
  Verification of the sftp-sync event-to-upload pipeline.

  Shallow embedding of the Go sources under internal/watcher and
  internal/syncignore: the notifier batching logic, the upload queue with
  retry, the debouncer, profile matching, watch registration and the
  .syncignore loader.  Paths are modelled as strings (already resolved to
  absolute, cleaned form where the Go code calls filepath.Abs), time as
  natural-number milliseconds, and external collaborators (the glob
  matcher, the filesystem walk, the transfer executor) as explicit
  functional parameters, following the interface boundary of the design.
-/
import Mathlib

namespace SftpSync

/-! ## Notifier (internal/watcher/notifier.go)

State per profile: success count, time of the last success notification
(absent when no notification was ever emitted, mirroring the Go map
lookup), and the consecutive error count.  Time is in milliseconds;
`time.Since` is modelled by truncated subtraction on `Nat`. -/

/-- `batchWindow` of the notifier: 30 seconds, in milliseconds. -/
def batchWindow : Nat := 30000

/-- `batchThreshold` of the notifier: 5 files. -/
def batchThreshold : Nat := 5

structure NotifierState where
  successCount : String → Nat
  lastNotifyTime : String → Option Nat
  errorCount : String → Nat

/-- `NewNotifier`: all maps empty (a missing key reads as 0 / absent). -/
def newNotifier : NotifierState :=
  ⟨fun _ => 0, fun _ => none, fun _ => 0⟩

/-- A success notification: either the single file name (first upload since
the last emission) or an aggregate count. -/
inductive SuccessMsg where
  | single (relPath profileName : String)
  | aggregate (count : Nat) (profileName : String)
deriving DecidableEq, Repr

/-- The `shouldNotify` / `message` computation of `NotifySuccess`, applied
to the already incremented count: emit when the count is 1 (or the profile
was never notified), when the count reached the threshold, or when the
batch window elapsed since the last emission.  When the last-notify entry
is absent the Go code compares against the zero time, but that branch is
shadowed by the `isNone` disjunct, exactly as in the source. -/
def successEmit (s : NotifierState) (now : Nat) (profileName relPath : String) :
    Option SuccessMsg :=
  let count := s.successCount profileName + 1
  let lastOpt := s.lastNotifyTime profileName
  let timeSince := now - lastOpt.getD 0
  if lastOpt.isNone || count == 1 then some (.single relPath profileName)
  else if batchThreshold ≤ count then some (.aggregate count profileName)
  else if batchWindow ≤ timeSince then some (.aggregate count profileName)
  else none

/-- `NotifySuccess`: increment the count, then emit according to
`successEmit`.  An emission resets the count to 0 and stamps the emission
time; otherwise the incremented count is kept. -/
def notifySuccess (s : NotifierState) (now : Nat) (profileName relPath : String) :
    NotifierState × Option SuccessMsg :=
  match successEmit s now profileName relPath with
  | some m =>
      ({ s with
          successCount := fun q => if q = profileName then 0 else s.successCount q,
          lastNotifyTime := fun q => if q = profileName then some now else s.lastNotifyTime q },
        some m)
  | none =>
      ({ s with
          successCount := fun q =>
            if q = profileName then s.successCount profileName + 1 else s.successCount q },
        none)

/-- An error notification: first failure carries the error detail, later
ones the failure count. -/
inductive ErrorMsg where
  | first (relPath profileName err : String)
  | repeated (relPath : String) (count : Nat) (err : String)
deriving DecidableEq, Repr

/-- The backoff condition of `NotifyError`: count 1, every 5th up to 10,
every 10th beyond 10. -/
def shouldNotifyError (count : Nat) : Bool :=
  count == 1 || (decide (count ≤ 10) && count % 5 == 0) ||
    (decide (10 < count) && count % 10 == 0)

/-- `NotifyError`: increment the consecutive error count and emit according
to the backoff schedule.  The count is never reset here (only
`ResetErrorCount` does). -/
def notifyError (s : NotifierState) (profileName relPath err : String) :
    NotifierState × Option ErrorMsg :=
  let count := s.errorCount profileName + 1
  let s1 := { s with errorCount := fun q => if q = profileName then count else s.errorCount q }
  if shouldNotifyError count then
    (s1, some (if count == 1 then .first relPath profileName err
               else .repeated relPath count err))
  else
    (s1, none)

/-- `ResetErrorCount`: set the consecutive error count of the profile to 0. -/
def resetErrorCount (s : NotifierState) (profileName : String) : NotifierState :=
  { s with errorCount := fun q => if q = profileName then 0 else s.errorCount q }

/-- States reachable from `NewNotifier` through the notifier interface. -/
inductive Reachable : NotifierState → Prop where
  | init : Reachable newNotifier
  | success {s} (now : Nat) (p rel : String) :
      Reachable s → Reachable (notifySuccess s now p rel).1
  | error {s} (p rel e : String) :
      Reachable s → Reachable (notifyError s p rel e).1
  | reset {s} (p : String) :
      Reachable s → Reachable (resetErrorCount s p)

/-- `NotifyError` and `ResetErrorCount` leave success state untouched. -/
theorem notifyError_success_state (s : NotifierState) (p rel e : String) :
    (notifyError s p rel e).1.successCount = s.successCount ∧
    (notifyError s p rel e).1.lastNotifyTime = s.lastNotifyTime := by
  unfold notifyError
  dsimp only
  split <;> exact ⟨rfl, rfl⟩

/-- Invariant of reachable notifier states: a profile that was never
notified has success count 0, and the success count never reaches the
threshold. -/
theorem reachable_invariant {s : NotifierState} (h : Reachable s) (p : String) :
    (s.lastNotifyTime p = none → s.successCount p = 0) ∧
    s.successCount p < batchThreshold := by
  induction h with
  | init => exact ⟨fun _ => rfl, by simp [newNotifier, batchThreshold]⟩
  | @success s now q rel _ ih =>
      cases hm : successEmit s now q rel with
      | some m =>
          simp only [notifySuccess, hm]
          constructor
          · intro hnone
            by_cases hq : p = q
            · simp [hq]
            · simp only [if_neg hq] at hnone ⊢
              exact ih.1 hnone
          · by_cases hq : p = q
            · simp [hq, batchThreshold]
            · simp only [if_neg hq]
              exact ih.2
      | none =>
          simp only [notifySuccess, hm]
          unfold successEmit at hm
          simp only at hm
          split_ifs at hm with h1 h2 h3
          -- no emission: the isNone branch was false, so the last-notify
          -- entry exists, and the threshold branch was false, so count < 5
          constructor
          · intro hnone
            by_cases hq : p = q
            · subst hq
              simp [hnone] at h1
            · simp only [if_neg hq] at hnone ⊢
              exact ih.1 hnone
          · by_cases hq : p = q
            · subst hq
              simp only [eq_self_iff_true, if_true]
              omega
            · simp only [if_neg hq]
              exact ih.2
  | @error s q rel e _ ih =>
      have h := notifyError_success_state s q rel e
      rw [h.1, h.2]
      exact ih
  | @reset s q _ ih =>
      exact ih

/-- When the stored count is 0, `successEmit` always emits the single-file
message: the incremented count is 1. -/
theorem successEmit_zero (s : NotifierState) (now : Nat) (p rel : String)
    (h : s.successCount p = 0) :
    successEmit s now p rel = some (.single rel p) := by
  unfold successEmit
  simp [h]

/-- In every reachable notifier state the success count of every profile is
0: each call to `NotifySuccess` emits (the count transitions 0 → 1 each
time) and the emission resets the count. -/
theorem reachable_successCount_zero {s : NotifierState} (h : Reachable s) :
    ∀ p : String, s.successCount p = 0 := by
  induction h with
  | init => intro p; rfl
  | @success s now q rel _ ih =>
      intro p
      cases hm : successEmit s now q rel with
      | some m =>
          simp only [notifySuccess, hm]
          by_cases hq : p = q
          · simp [hq]
          · simp only [if_neg hq]
            exact ih p
      | none =>
          rw [successEmit_zero s now q rel (ih q)] at hm
          exact absurd hm (by simp)
  | @error s q rel e _ ih =>
      intro p
      have h := notifyError_success_state s q rel e
      rw [h.1]
      exact ih p
  | @reset s q _ ih =>
      exact ih

/-- Running `NotifySuccess` over a list of (time, relative path) events for
one profile, collecting the emitted notifications in order. -/
def runSuccesses (s : NotifierState) (profileName : String) :
    List (Nat × String) → NotifierState × List SuccessMsg
  | [] => (s, [])
  | (t, rel) :: rest =>
      let r := notifySuccess s t profileName rel
      let r2 := runSuccesses r.1 profileName rest
      (r2.1, r.2.toList ++ r2.2)

/-- Whether a success message is an aggregate-count message. -/
def SuccessMsg.isAggregate : SuccessMsg → Bool
  | .aggregate _ _ => true
  | .single _ _ => false

/-- C1: FALSIFIED ON THE CODE (code bug).  The claim says five successful
uploads inside the 30-second batch window produce exactly one aggregate
notification.  In the code every emission resets the success count to 0,
so the `count == 1` branch fires on every single call: five uploads from a
fresh notifier (at 0,1,2,3,4 ms, well inside the window) emit five
single-file notifications and no aggregate one; the threshold and window
branches are unreachable.  The final counter is 0, as the claim says. -/
theorem claim1_success_batching_bug :
    (runSuccesses newNotifier "p"
        [(0, "f1"), (1, "f2"), (2, "f3"), (3, "f4"), (4, "f5")]).2 =
      [.single "f1" "p", .single "f2" "p", .single "f3" "p",
        .single "f4" "p", .single "f5" "p"] ∧
    ((runSuccesses newNotifier "p"
        [(0, "f1"), (1, "f2"), (2, "f3"), (3, "f4"), (4, "f5")]).2.filter
          SuccessMsg.isAggregate) = [] ∧
    (runSuccesses newNotifier "p"
        [(0, "f1"), (1, "f2"), (2, "f3"), (3, "f4"), (4, "f5")]).1.successCount "p" = 0 := by
  exact ⟨rfl, rfl, rfl⟩

/-- Iterated `NotifyError` for one profile: `runErrors s p rel e n` is the
state after `n` consecutive failures with no intervening reset. -/
def runErrors (s : NotifierState) (profileName relPath err : String) : Nat → NotifierState
  | 0 => s
  | n + 1 => (notifyError (runErrors s profileName relPath err n) profileName relPath err).1

/-- The error count after `NotifyError`, at every key. -/
theorem notifyError_count (s : NotifierState) (p rel e q : String) :
    (notifyError s p rel e).1.errorCount q =
      if q = p then s.errorCount p + 1 else s.errorCount q := by
  unfold notifyError
  dsimp only
  split <;> rfl

/-- `NotifyError` emits exactly when the backoff condition holds of the
incremented count. -/
theorem notifyError_emits (s : NotifierState) (p rel e : String) :
    (notifyError s p rel e).2.isSome = shouldNotifyError (s.errorCount p + 1) := by
  unfold notifyError
  dsimp only
  split <;> simp_all

/-- `runErrors` adds `n` to the error count of the profile. -/
theorem runErrors_count (s : NotifierState) (p rel e : String) (n : Nat) :
    (runErrors s p rel e n).errorCount p = s.errorCount p + n := by
  induction n with
  | zero => rfl
  | succ n ih =>
      unfold runErrors
      rw [notifyError_count, if_pos rfl, ih]
      omega

/-- The backoff schedule emits exactly at 1, 5, 10 and every multiple of 10
from 20 on. -/
theorem shouldNotifyError_iff (n : Nat) (h : 1 ≤ n) :
    shouldNotifyError n = true ↔ (n = 1 ∨ n = 5 ∨ n = 10 ∨ (20 ≤ n ∧ n % 10 = 0)) := by
  unfold shouldNotifyError
  simp only [Bool.or_eq_true, Bool.and_eq_true, decide_eq_true_eq, beq_iff_eq]
  omega

/-- C3: starting from a profile with error count 0, the `N`-th consecutive
`NotifyError` (no intervening reset) emits exactly when `N` is 1, 5, 10 or
a multiple of 10 at least 20; `ResetErrorCount` puts the count back to
0. -/
theorem claim3_notifyError_schedule (s : NotifierState) (p rel e : String) (N : Nat)
    (hs : s.errorCount p = 0) (hN : 1 ≤ N) :
    ((notifyError (runErrors s p rel e (N - 1)) p rel e).2.isSome = true ↔
      (N = 1 ∨ N = 5 ∨ N = 10 ∨ (20 ≤ N ∧ N % 10 = 0))) ∧
    (resetErrorCount s p).errorCount p = 0 := by
  constructor
  · rw [notifyError_emits, runErrors_count, hs]
    have hn : 0 + (N - 1) + 1 = N := by omega
    rw [hn]
    exact shouldNotifyError_iff N hN
  · simp [resetErrorCount]

/-- Witness for C3 at `N = 5` from the fresh notifier. -/
theorem claim3_notifyError_schedule_witness :
    ((notifyError (runErrors newNotifier "p" "f" "err" (5 - 1)) "p" "f" "err").2.isSome = true ↔
      ((5:Nat) = 1 ∨ (5:Nat) = 5 ∨ (5:Nat) = 10 ∨ (20 ≤ (5:Nat) ∧ (5:Nat) % 10 = 0))) ∧
    (resetErrorCount newNotifier "p").errorCount "p" = 0 :=
  claim3_notifyError_schedule newNotifier "p" "f" "err" 5 rfl (by decide)

/-! ## Debouncer (internal/watcher/debounce.go)

The debouncer keeps a map key → timer.  We model the set of live timers
(created by `time.AfterFunc`, not yet stopped and not yet fired) as a list
of (key, timer id) pairs, a log of fired timers, and a fresh-id counter.
`Add` stops the existing timer of the key (it can no longer fire) and installs
a fresh one; `Stop` stops the timer of the key; a live timer may fire, which
removes the map entry of the key before running the callback.  The debounce key
used by `handleEvent` (watcher.go) is the string
`profileName ++ ":" ++ filePath`. -/

structure DebounceState where
  live : List (String × Nat)
  fired : List (String × Nat)
  nextId : Nat

def emptyDebouncer : DebounceState := ⟨[], [], 0⟩

/-- The debounce key built in `handleEvent`: `profileName + ":" + filePath`. -/
def debounceKey (profileName filePath : String) : String :=
  profileName ++ ":" ++ filePath

/-- The live timers currently associated with a key. -/
def DebounceState.timersFor (d : DebounceState) (key : String) : List (String × Nat) :=
  d.live.filter (fun t => t.1 == key)

/-- `Add`: stop the existing timer for the key, if any, and install a fresh
one (the delay and callback play no role in the timer bookkeeping). -/
def DebounceState.add (d : DebounceState) (key : String) : DebounceState :=
  { d with
      live := (key, d.nextId) :: d.live.filter (fun t => !(t.1 == key)),
      nextId := d.nextId + 1 }

/-- `Stop`: stop and drop the timer of the key; nothing else changes and nothing
fires. -/
def DebounceState.stopKey (d : DebounceState) (key : String) : DebounceState :=
  { d with live := d.live.filter (fun t => !(t.1 == key)) }

/-- Expiry of a live timer `(key, id)`: the callback first deletes the
map entry of the key, then runs; the firing is logged.  Only a live (never
stopped, never replaced) timer can fire. -/
def DebounceState.fire (d : DebounceState) (key : String) (id : Nat) : DebounceState :=
  if (key, id) ∈ d.live then
    { d with
        live := d.live.filter (fun t => !(t.1 == key)),
        fired := d.fired ++ [(key, id)] }
  else d

/-- Debouncer states reachable through the interface. -/
inductive DReach : DebounceState → Prop where
  | init : DReach emptyDebouncer
  | add {d} (k : String) : DReach d → DReach (d.add k)
  | stop {d} (k : String) : DReach d → DReach (d.stopKey k)
  | fire {d} (k : String) (i : Nat) : DReach d → DReach (d.fire k i)

/-- Filtering for a key after filtering the key away yields nothing. -/
theorem filter_eq_after_filter_ne (l : List (String × Nat)) (k : String) :
    (l.filter (fun t => !(t.1 == k))).filter (fun t => t.1 == k) = [] := by
  induction l with
  | nil => rfl
  | cons a l ih =>
      cases hak : (a.1 == k) with
      | true => simp [List.filter_cons, hak, ih]
      | false => simp [List.filter_cons, hak, ih]

/-- Filtering for a different key is unaffected by removing this key. -/
theorem filter_eq_after_filter_ne_other (l : List (String × Nat)) (k k' : String)
    (h : k' ≠ k) :
    (l.filter (fun t => !(t.1 == k))).filter (fun t => t.1 == k') =
      l.filter (fun t => t.1 == k') := by
  induction l with
  | nil => rfl
  | cons a l ih =>
      cases hak : (a.1 == k) with
      | true =>
          have ha : a.1 = k := by simpa [beq_iff_eq] using hak
          have ha' : (a.1 == k') = false := by
            simp only [beq_eq_false_iff_ne, ne_eq, ha]
            exact fun hh => h hh.symm
          simp [List.filter_cons, hak, ha', ih]
      | false =>
          cases hak' : (a.1 == k') with
          | true => simp [List.filter_cons, hak, hak', ih]
          | false => simp [List.filter_cons, hak, hak', ih]

/-- A list with no entries for a key is unchanged by filtering the key
away. -/
theorem filter_ne_of_no_entry (l : List (String × Nat)) (k : String)
    (h : l.filter (fun t => t.1 == k) = []) :
    l.filter (fun t => !(t.1 == k)) = l := by
  induction l with
  | nil => rfl
  | cons a l ih =>
      cases hak : (a.1 == k) with
      | true => simp [List.filter_cons, hak] at h
      | false =>
          simp only [List.filter_cons, hak, Bool.false_eq_true, if_false] at h
          simp [List.filter_cons, hak, ih h]

/-- The new timer list of `add` for the key itself. -/
theorem timersFor_add_self (d : DebounceState) (k : String) :
    (d.add k).timersFor k = [(k, d.nextId)] := by
  unfold DebounceState.add DebounceState.timersFor
  simp [List.filter_cons, filter_eq_after_filter_ne]

/-- Invariant: every reachable debouncer state has at most one live timer
per key. -/
theorem dreach_at_most_one {d : DebounceState} (h : DReach d) :
    ∀ k : String, ((d.timersFor k).length ≤ 1) := by
  induction h with
  | init => intro k; exact Nat.le_of_lt_succ (by simp [emptyDebouncer, DebounceState.timersFor, List.filter])
  | @add d k _ ih =>
      intro q
      by_cases hq : q = k
      · subst hq
        rw [timersFor_add_self]
        simp
      · unfold DebounceState.add DebounceState.timersFor
        have hk : (((k, d.nextId) : String × Nat).1 == q) = false := by
          simp only [beq_eq_false_iff_ne, ne_eq]
          exact fun hh => hq hh.symm
        simp only [List.filter_cons, hk, Bool.false_eq_true, if_false]
        rw [filter_eq_after_filter_ne_other d.live k q hq]
        exact ih q
  | @stop d k _ ih =>
      intro q
      by_cases hq : q = k
      · subst hq
        unfold DebounceState.stopKey DebounceState.timersFor
        simp only
        rw [filter_eq_after_filter_ne]
        simp
      · unfold DebounceState.stopKey DebounceState.timersFor
        simp only
        rw [filter_eq_after_filter_ne_other d.live k q hq]
        exact ih q
  | @fire d k i _ ih =>
      intro q
      unfold DebounceState.fire
      split
      · by_cases hq : q = k
        · subst hq
          unfold DebounceState.timersFor
          simp only
          rw [filter_eq_after_filter_ne]
          simp
        · unfold DebounceState.timersFor
          simp only
          rw [filter_eq_after_filter_ne_other d.live k q hq]
          exact ih q
      · exact ih q

/-- C4 (amended): at most one live timer per key in every reachable state;
`Add` for a key installs exactly one fresh timer for that key; for two
(profile, path) pairs whose encoded keys differ, `Add` and `Stop` on one
pair leave the timers of the other pair untouched; `Stop` drops the timer of the key
without firing anything and is a no-op when no timer is pending.  (The
unamended claim, independence for all distinct pairs, fails because the
key is the colon-joined concatenation, which is not injective.) -/
theorem claim4_debouncer_keys (d : DebounceState) (hd : DReach d)
    (p1 f1 p2 f2 : String)
    (hne : debounceKey p2 f2 ≠ debounceKey p1 f1) :
    (∀ q : String, (d.timersFor q).length ≤ 1) ∧
    ((d.add (debounceKey p1 f1)).timersFor (debounceKey p1 f1)
        = [(debounceKey p1 f1, d.nextId)]) ∧
    ((d.add (debounceKey p1 f1)).timersFor (debounceKey p2 f2)
        = d.timersFor (debounceKey p2 f2)) ∧
    ((d.stopKey (debounceKey p1 f1)).timersFor (debounceKey p2 f2)
        = d.timersFor (debounceKey p2 f2)) ∧
    ((d.stopKey (debounceKey p1 f1)).timersFor (debounceKey p1 f1) = [] ∧
      (d.stopKey (debounceKey p1 f1)).fired = d.fired) ∧
    (d.timersFor (debounceKey p1 f1) = [] → d.stopKey (debounceKey p1 f1) = d) := by
  refine ⟨dreach_at_most_one hd, timersFor_add_self d _, ?_, ?_, ⟨?_, rfl⟩, ?_⟩
  · unfold DebounceState.add DebounceState.timersFor
    simp only [List.filter_cons]
    rw [show ((debounceKey p1 f1, d.nextId).1 == debounceKey p2 f2) = false by
      simp only [beq_eq_false_iff_ne, ne_eq]
      exact fun hh => hne hh.symm]
    simp only [Bool.false_eq_true, if_false]
    exact filter_eq_after_filter_ne_other d.live _ _ hne
  · unfold DebounceState.stopKey DebounceState.timersFor
    simp only
    exact filter_eq_after_filter_ne_other d.live _ _ hne
  · unfold DebounceState.stopKey DebounceState.timersFor
    simp only
    exact filter_eq_after_filter_ne d.live _
  · intro hnone
    unfold DebounceState.stopKey
    rw [filter_ne_of_no_entry d.live _ hnone]

/-- Witness for C4 on the reachable state holding one timer for the pair
("a", "x") and one for ("b", "y"). -/
theorem claim4_debouncer_keys_witness :
    (∀ q : String,
      ((((emptyDebouncer.add (debounceKey "a" "x")).add
          (debounceKey "b" "y")).timersFor q).length ≤ 1)) ∧
    ((((emptyDebouncer.add (debounceKey "a" "x")).add
        (debounceKey "b" "y")).add (debounceKey "a" "x")).timersFor (debounceKey "a" "x")
        = [(debounceKey "a" "x",
            ((emptyDebouncer.add (debounceKey "a" "x")).add (debounceKey "b" "y")).nextId)]) ∧
    ((((emptyDebouncer.add (debounceKey "a" "x")).add
        (debounceKey "b" "y")).add (debounceKey "a" "x")).timersFor (debounceKey "b" "y")
        = ((emptyDebouncer.add (debounceKey "a" "x")).add
            (debounceKey "b" "y")).timersFor (debounceKey "b" "y")) ∧
    ((((emptyDebouncer.add (debounceKey "a" "x")).add
        (debounceKey "b" "y")).stopKey (debounceKey "a" "x")).timersFor (debounceKey "b" "y")
        = ((emptyDebouncer.add (debounceKey "a" "x")).add
            (debounceKey "b" "y")).timersFor (debounceKey "b" "y")) ∧
    ((((emptyDebouncer.add (debounceKey "a" "x")).add
        (debounceKey "b" "y")).stopKey (debounceKey "a" "x")).timersFor (debounceKey "a" "x")
        = [] ∧
      (((emptyDebouncer.add (debounceKey "a" "x")).add
          (debounceKey "b" "y")).stopKey (debounceKey "a" "x")).fired
        = ((emptyDebouncer.add (debounceKey "a" "x")).add (debounceKey "b" "y")).fired) ∧
    (((emptyDebouncer.add (debounceKey "a" "x")).add
        (debounceKey "b" "y")).timersFor (debounceKey "a" "x") = [] →
      ((emptyDebouncer.add (debounceKey "a" "x")).add
        (debounceKey "b" "y")).stopKey (debounceKey "a" "x")
        = (emptyDebouncer.add (debounceKey "a" "x")).add (debounceKey "b" "y")) :=
  claim4_debouncer_keys _ (DReach.add _ (DReach.add _ DReach.init)) "a" "x" "b" "y"
    (by decide)

/-- C4 counterexample: the encoded key is not injective, so two distinct
(profile, path) pairs can share a key, and an `Add` for one replaces the
pending timer of the other.  Pairs: ("a", "b:c") and ("a:b", "c"). -/
theorem claim4_counterexample :
    ("a", "b:c") ≠ (("a:b", "c") : String × String) ∧
    debounceKey "a" "b:c" = debounceKey "a:b" "c" ∧
    (emptyDebouncer.add (debounceKey "a:b" "c")).timersFor (debounceKey "a:b" "c")
      = [(debounceKey "a:b" "c", 0)] ∧
    ((emptyDebouncer.add (debounceKey "a:b" "c")).add
        (debounceKey "a" "b:c")).timersFor (debounceKey "a:b" "c")
      = [(debounceKey "a:b" "c", 1)] := by
  refine ⟨by decide, by decide, ?_, ?_⟩ <;> decide

/-! ## Profile matching (internal/watcher/watcher.go, findMatchingProfiles)

Registered profiles are modelled as a list of (name, context) pairs (the
Go map has unique names; the result is characterised by membership, which
is order-independent).  The path separator is `/`. -/

/-- Number of path separators in a string (`strings.Count(s, "/")`). -/
def pathDepth (s : String) : Nat := s.toList.count '/'

/-- Go `strings.HasPrefix s pre`, on the character sequences (equivalent
for well-formed UTF-8; structurally recursive so that it evaluates). -/
def hasPre (s pre : String) : Bool :=
  pre.data.isPrefixOf s.data

/-- A profile matches a file when the file is under the context of the profile:
prefix match on `context + "/"`, or exact equality. -/
def profileMatchesPath (filePath context : String) : Bool :=
  hasPre filePath (context ++ "/") || filePath == context

/-- The maximum-depth fold of `findMatchingProfiles` (the Go loop starts
from -1; over a nonempty list of naturals, starting from 0 computes the
same maximum). -/
def maxDepthFold (l : List (String × String)) (a : Nat) : Nat :=
  l.foldl (fun acc nc => if pathDepth nc.2 > acc then pathDepth nc.2 else acc) a

/-- `findMatchingProfiles`: keep the matching profiles, then keep only
those whose context depth is the maximal matching depth, returning their
names. -/
def findMatchingProfiles (profiles : List (String × String)) (filePath : String) :
    List String :=
  let matched := profiles.filter fun nc => profileMatchesPath filePath nc.2
  if matched.length = 0 then []
  else
    let maxDepth := maxDepthFold matched 0
    (matched.filter fun nc => pathDepth nc.2 == maxDepth).map Prod.fst

theorem maxDepthFold_cons (x : String × String) (l : List (String × String)) (a : Nat) :
    maxDepthFold (x :: l) a =
      maxDepthFold l (if pathDepth x.2 > a then pathDepth x.2 else a) := rfl

/-- The fold never goes below its initial accumulator. -/
theorem maxDepthFold_init_le (l : List (String × String)) (a : Nat) :
    a ≤ maxDepthFold l a := by
  induction l generalizing a with
  | nil => exact Nat.le_refl a
  | cons x l ih =>
      rw [maxDepthFold_cons]
      refine Nat.le_trans ?_ (ih _)
      by_cases h : pathDepth x.2 > a
      · rw [if_pos h]; exact Nat.le_of_lt h
      · rw [if_neg h]

/-- The fold bounds every depth in the list. -/
theorem maxDepthFold_ub (l : List (String × String)) (a : Nat) :
    ∀ nc ∈ l, pathDepth nc.2 ≤ maxDepthFold l a := by
  induction l generalizing a with
  | nil => intro nc h; exact absurd h (List.not_mem_nil nc)
  | cons x l ih =>
      intro nc h
      rw [maxDepthFold_cons]
      rcases List.mem_cons.mp h with hx | hl
      · subst hx
        refine Nat.le_trans ?_ (maxDepthFold_init_le l _)
        by_cases hgt : pathDepth nc.2 > a
        · rw [if_pos hgt]
        · rw [if_neg hgt]; omega
      · exact ih _ nc hl

/-- The fold returns its initial accumulator or a depth from the list. -/
theorem maxDepthFold_attained (l : List (String × String)) (a : Nat) :
    maxDepthFold l a = a ∨ ∃ nc ∈ l, maxDepthFold l a = pathDepth nc.2 := by
  induction l generalizing a with
  | nil => exact Or.inl rfl
  | cons x l ih =>
      rw [maxDepthFold_cons]
      by_cases hgt : pathDepth x.2 > a
      · rw [if_pos hgt]
        rcases ih (pathDepth x.2) with h | ⟨nc, hm, he⟩
        · exact Or.inr ⟨x, List.mem_cons_self x l, h⟩
        · exact Or.inr ⟨nc, List.mem_cons_of_mem x hm, he⟩
      · rw [if_neg hgt]
        rcases ih a with h | ⟨nc, hm, he⟩
        · exact Or.inl h
        · exact Or.inr ⟨nc, List.mem_cons_of_mem x hm, he⟩

/-- C5: a name is returned by `findMatchingProfiles` exactly when it is
registered with a context that matches the path (the context followed by a
separator is a prefix of the path, or the context equals the path) and
whose depth (separator count) is maximal among all matching registered
profiles; all tied profiles at the maximal depth are returned. -/
theorem claim5_findMatchingProfiles (profiles : List (String × String))
    (filePath name : String) :
    name ∈ findMatchingProfiles profiles filePath ↔
      ∃ ctx, (name, ctx) ∈ profiles ∧ profileMatchesPath filePath ctx = true ∧
        ∀ nc ∈ profiles, profileMatchesPath filePath nc.2 = true →
          pathDepth nc.2 ≤ pathDepth ctx := by
  simp only [findMatchingProfiles]
  by_cases hM : (profiles.filter fun nc => profileMatchesPath filePath nc.2).length = 0
  · rw [if_pos hM]
    simp only [List.not_mem_nil, false_iff]
    rintro ⟨ctx, hmem, hmatch, _⟩
    have : (name, ctx) ∈ profiles.filter (fun nc => profileMatchesPath filePath nc.2) :=
      List.mem_filter.mpr ⟨hmem, hmatch⟩
    rw [List.length_eq_zero.mp hM] at this
    exact absurd this (List.not_mem_nil _)
  · rw [if_neg hM]
    set M := profiles.filter (fun nc => profileMatchesPath filePath nc.2) with hMdef
    simp only [List.mem_map, List.mem_filter]
    constructor
    · rintro ⟨nc, ⟨hncM, hdep⟩, hname⟩
      have hncP := List.mem_filter.mp (hMdef ▸ hncM)
      subst hname
      refine ⟨nc.2, ?_, hncP.2, ?_⟩
      · exact hncP.1
      · intro nc' hnc' hmatch'
        have hnc'M : nc' ∈ M := hMdef ▸ List.mem_filter.mpr ⟨hnc', hmatch'⟩
        have hub := maxDepthFold_ub M 0 nc' hnc'M
        have : pathDepth nc.2 = maxDepthFold M 0 := by simpa using hdep
        omega
    · rintro ⟨ctx, hmem, hmatch, hmax⟩
      have hctxM : (name, ctx) ∈ M := hMdef ▸ List.mem_filter.mpr ⟨hmem, hmatch⟩
      have hle : pathDepth ctx ≤ maxDepthFold M 0 := maxDepthFold_ub M 0 _ hctxM
      have hge : maxDepthFold M 0 ≤ pathDepth ctx := by
        rcases maxDepthFold_attained M 0 with h0 | ⟨nc, hncM, he⟩
        · omega
        · have hncP := List.mem_filter.mp (hMdef ▸ hncM)
          have := hmax nc hncP.1 hncP.2
          omega
      refine ⟨(name, ctx), ⟨hctxM, ?_⟩, rfl⟩
      have : pathDepth ctx = maxDepthFold M 0 := Nat.le_antisymm hle hge
      simp [this]

/-! ## Upload queue channel (internal/watcher/queue.go)

The queue is a Go channel of capacity 100 with a single consumer
goroutine.  We model the channel as a FIFO buffer plus a closed flag:
`Enqueue` warns at 80% fill and then sends (blocking while the buffer is
full, and panicking - never accepting - once the channel is closed);
the consumer takes buffered tasks in order and exits once the channel is
both empty and closed, which is the semantics of `for task := range
q.queue` after `close`. -/

structure UploadTask where
  profileName : String
  filePath : String
deriving DecidableEq, Repr

/-- Channel capacity: `make(chan *uploadTask, 100)`. -/
def queueCapacity : Nat := 100

/-- The warning threshold `int(float64(queueCap) * 0.8)` for capacity 100:
exactly 80. -/
def warnThreshold : Nat := 80

structure QueueState where
  buffer : List UploadTask
  closed : Bool
deriving DecidableEq, Repr

/-- A fresh queue: empty buffer, channel open. -/
def newUploadQueue : QueueState := ⟨[], false⟩

/-- Outcome of one `Enqueue` call.  `warned` records whether the non-fatal
capacity warning was printed (it is printed before the send, and affects
nothing else).  `blocked` is a send on a full channel: the caller waits;
`panicked` is a send on a closed channel: the call is not accepted. -/
inductive EnqueueResult where
  | accepted (s : QueueState) (warned : Bool)
  | blocked (warned : Bool)
  | panicked
deriving DecidableEq, Repr

/-- `Enqueue`: warn when the current fill is at least 80% of capacity, then
send the task. -/
def enqueue (s : QueueState) (t : UploadTask) : EnqueueResult :=
  let warned := decide (warnThreshold ≤ s.buffer.length)
  if s.closed then .panicked
  else if s.buffer.length < queueCapacity then
    .accepted ⟨s.buffer ++ [t], s.closed⟩ warned
  else .blocked warned

/-- A channel receive: the first buffered task, if any. -/
def dequeue (s : QueueState) : Option (UploadTask × QueueState) :=
  match s.buffer with
  | [] => none
  | t :: rest => some (t, ⟨rest, s.closed⟩)

/-- `Stop`: `close(q.queue)`. -/
def stopQueue (s : QueueState) : QueueState := ⟨s.buffer, true⟩

/-- C7: the queue capacity is the fixed constant 100 and the warning
threshold is 80% of it; an accepted `Enqueue` appends the task (nothing is
dropped) and never grows the buffer beyond capacity; `Enqueue` blocks
exactly when the buffer is full; below capacity the call is accepted with
the non-fatal warning flag set exactly when the fill is at least the
threshold (the warning neither blocks nor fails the call); and after the
consumer removes one item from a full queue the same `Enqueue` is
accepted. -/
theorem claim7_enqueue_backpressure (s : QueueState) (t : UploadTask)
    (hcap : s.buffer.length ≤ queueCapacity) (hopen : s.closed = false) :
    (queueCapacity = 100 ∧ warnThreshold * 5 = queueCapacity * 4) ∧
    (∀ s' w, enqueue s t = .accepted s' w →
      s'.buffer = s.buffer ++ [t] ∧ s'.buffer.length ≤ queueCapacity) ∧
    ((∃ w, enqueue s t = .blocked w) ↔ s.buffer.length = queueCapacity) ∧
    (s.buffer.length < queueCapacity →
      enqueue s t = .accepted ⟨s.buffer ++ [t], false⟩
        (decide (warnThreshold ≤ s.buffer.length))) ∧
    (s.buffer.length = queueCapacity → ∀ t' s'', dequeue s = some (t', s'') →
      ∃ s3 w, enqueue s'' t = .accepted s3 w) := by
  refine ⟨⟨rfl, rfl⟩, ?_, ?_, ?_, ?_⟩
  · intro s' w h
    unfold enqueue at h
    rw [hopen] at h
    simp only [Bool.false_eq_true, if_false] at h
    by_cases hlt : s.buffer.length < queueCapacity
    · rw [if_pos hlt] at h
      cases h
      constructor
      · rfl
      · simp only [List.length_append, List.length_cons, List.length_nil]
        omega
    · rw [if_neg hlt] at h
      exact absurd h (by simp)
  · constructor
    · rintro ⟨w, h⟩
      unfold enqueue at h
      rw [hopen] at h
      simp only [Bool.false_eq_true, if_false] at h
      by_cases hlt : s.buffer.length < queueCapacity
      · rw [if_pos hlt] at h
        exact absurd h (by simp)
      · omega
    · intro hfull
      refine ⟨decide (warnThreshold ≤ s.buffer.length), ?_⟩
      unfold enqueue
      rw [hopen]
      simp only [Bool.false_eq_true, if_false]
      rw [if_neg (by omega)]
  · intro hlt
    unfold enqueue
    rw [hopen]
    simp only [Bool.false_eq_true, if_false]
    rw [if_pos hlt]
  · intro hfull t' s'' hdq
    unfold dequeue at hdq
    cases hb : s.buffer with
    | nil => rw [hb] at hdq; exact absurd hdq (by simp)
    | cons x rest =>
        rw [hb] at hdq
        simp only [Option.some_inj] at hdq
        injection hdq with h1 h2
        subst h2
        have hlen : rest.length < queueCapacity := by
          rw [hb] at hfull
          simp only [List.length_cons] at hfull
          omega
        refine ⟨⟨rest ++ [t], false⟩, decide (warnThreshold ≤ rest.length), ?_⟩
        simp [enqueue, hopen, hlen]

/-- The consumer loop: `running` while inside `for task := range q.queue`,
`exited` after the range loop ends.  `processed` is the list of tasks whose
`processUpload` call (retries included) has completed, in order. -/
inductive ConsumerPhase where
  | running
  | exited
deriving DecidableEq, Repr

structure QueueRun where
  q : QueueState
  processed : List UploadTask
  consumer : ConsumerPhase
deriving DecidableEq, Repr

/-- One step of the consumer: receive and fully process the next buffered
task, or exit when the channel is empty and closed (`range` ends). -/
inductive QueueStep : QueueRun → QueueRun → Prop where
  | take (q : QueueState) (t : UploadTask) (rest log : List UploadTask) :
      q.buffer = t :: rest →
      QueueStep ⟨q, log, .running⟩ ⟨⟨rest, q.closed⟩, log ++ [t], .running⟩
  | exit (q : QueueState) (log : List UploadTask) :
      q.buffer = [] → q.closed = true →
      QueueStep ⟨q, log, .running⟩ ⟨q, log, .exited⟩

/-- Every consumer step starts from the running phase. -/
theorem queueStep_from_running {a b : QueueRun} (h : QueueStep a b) :
    a.consumer = .running := by
  cases h <;> rfl

/-- Once exited, the consumer makes no further step. -/
theorem queueRun_exited_fixed {a b : QueueRun}
    (h : Relation.ReflTransGen QueueStep a b) (ha : a.consumer = .exited) :
    b = a := by
  induction h using Relation.ReflTransGen.head_induction_on with
  | refl => rfl
  | head hstep _ _ =>
      rw [queueStep_from_running hstep] at ha
      exact absurd ha (by simp)

/-- Drain lemma: from a running consumer on a closed channel, any execution
that reaches the exited phase has processed exactly the buffered tasks, in
order, appended to what was already processed. -/
theorem queue_drain {a b : QueueRun}
    (h : Relation.ReflTransGen QueueStep a b)
    (hrun : a.consumer = .running) (hclosed : a.q.closed = true)
    (hexit : b.consumer = .exited) :
    b.processed = a.processed ++ a.q.buffer ∧ b.q.buffer = [] := by
  induction h using Relation.ReflTransGen.head_induction_on with
  | refl =>
      rw [hrun] at hexit
      exact absurd hexit (by simp)
  | @head a c hstep htail ih =>
      cases hstep with
      | take q t rest log hb =>
          have hc : (⟨⟨rest, q.closed⟩, log ++ [t], .running⟩ : QueueRun).q.closed = true :=
            hclosed
          have := ih rfl hc
          refine ⟨?_, this.2⟩
          rw [this.1]
          simp only at hb ⊢
          rw [hb]
          simp
      | exit q log hb hcl =>
          have hbq : b = ⟨q, log, .exited⟩ := queueRun_exited_fixed htail rfl
          subst hbq
          simp only at hb ⊢
          rw [hb]
          simp

/-- C9: after `Stop` closes the input, a consumer run that exits has
processed every task buffered at the time of `Stop`, in order, before
exiting; and no `Enqueue` is accepted after `Stop` (a send on the closed
channel panics). -/
theorem claim9_stop_drains (s : QueueState) (log fin : List UploadTask)
    (q' : QueueState)
    (h : Relation.ReflTransGen QueueStep ⟨stopQueue s, log, .running⟩ ⟨q', fin, .exited⟩) :
    fin = log ++ s.buffer ∧ q'.buffer = [] ∧
    ∀ t : UploadTask, enqueue (stopQueue s) t = .panicked := by
  have hd := queue_drain h rfl rfl rfl
  exact ⟨hd.1, hd.2, fun t => rfl⟩

/-- Witness for C9: a two-task buffer is drained in order after `Stop`. -/
theorem claim9_stop_drains_witness :
    ([⟨"p", "a"⟩, ⟨"p", "b"⟩] : List UploadTask) = [] ++ [⟨"p", "a"⟩, ⟨"p", "b"⟩] ∧
    (⟨[], true⟩ : QueueState).buffer = [] ∧
    ∀ t : UploadTask, enqueue (stopQueue ⟨[⟨"p", "a"⟩, ⟨"p", "b"⟩], false⟩) t = .panicked :=
  claim9_stop_drains ⟨[⟨"p", "a"⟩, ⟨"p", "b"⟩], false⟩ [] _ _
    (Relation.ReflTransGen.head (QueueStep.take _ _ _ _ rfl)
      (Relation.ReflTransGen.head (QueueStep.take _ _ _ _ rfl)
        (Relation.ReflTransGen.single (QueueStep.exit _ _ rfl rfl))))

/-- Witness for C7 on a queue holding 85 copies of one task (open, below
capacity, above the warning threshold). -/
theorem claim7_enqueue_backpressure_witness :
    ((queueCapacity = 100 ∧ warnThreshold * 5 = queueCapacity * 4) ∧
    (∀ s' w, enqueue ⟨List.replicate 85 ⟨"p", "f"⟩, false⟩ ⟨"p", "g"⟩ = .accepted s' w →
      s'.buffer = List.replicate 85 (⟨"p", "f"⟩ : UploadTask) ++ [⟨"p", "g"⟩] ∧
      s'.buffer.length ≤ queueCapacity) ∧
    ((∃ w, enqueue ⟨List.replicate 85 ⟨"p", "f"⟩, false⟩ ⟨"p", "g"⟩ = .blocked w) ↔
      (List.replicate 85 (⟨"p", "f"⟩ : UploadTask)).length = queueCapacity) ∧
    ((List.replicate 85 (⟨"p", "f"⟩ : UploadTask)).length < queueCapacity →
      enqueue ⟨List.replicate 85 ⟨"p", "f"⟩, false⟩ ⟨"p", "g"⟩ =
        .accepted ⟨List.replicate 85 (⟨"p", "f"⟩ : UploadTask) ++ [⟨"p", "g"⟩], false⟩
          (decide (warnThreshold ≤ (List.replicate 85 (⟨"p", "f"⟩ : UploadTask)).length))) ∧
    ((List.replicate 85 (⟨"p", "f"⟩ : UploadTask)).length = queueCapacity →
      ∀ t' s'', dequeue ⟨List.replicate 85 ⟨"p", "f"⟩, false⟩ = some (t', s'') →
        ∃ s3 w, enqueue s'' ⟨"p", "g"⟩ = .accepted s3 w)) :=
  claim7_enqueue_backpressure ⟨List.replicate 85 ⟨"p", "f"⟩, false⟩ ⟨"p", "g"⟩
    (by simp [queueCapacity]) rfl

/-! ## processUpload (internal/watcher/queue.go)

`processUpload` resolves the profile of the task, computes the path relative to
the context of the profile (dropping the task when the file is not under and
not equal to the context), drops ignored paths, and otherwise runs the
external upload with up to 3 attempts and sleeps of 1s and 2s between
them.  The external transfer is a parameter `uploads : Nat → Option
String` giving the result of the i-th attempt (0-based; `none` is
success, `some e` the failure message), and the glob matcher is the
parameter `matchesPat`, per the external-interface boundary. -/

/-- Go `filepath.Base` (for slash paths): strip trailing separators, then
the last element; empty string gives ".", all-separators gives "/". -/
def filepathBase (p : String) : String :=
  if p = "" then "."
  else
    let stripped := p.dropRightWhile (fun c => c == '/')
    if stripped = "" then "/"
    else (stripped.splitOn "/").getLastD ""

/-- The profile data `processUpload` reads: the context directory. -/
structure WatchProfile where
  context : String
deriving DecidableEq, Repr

/-- Observable events of one `processUpload` run. -/
inductive UploadEvent where
  | attempt (n : Nat)
  | sleep (ms : Nat)
deriving DecidableEq, Repr

/-- The callback fired by one `processUpload` run (at most one). -/
inductive UploadOutcome where
  | dropped
  | success (profileName relPath : String)
  | failure (profileName relPath err : String) (attempts : Nat)
deriving DecidableEq, Repr

/-- `maxRetries := 3`. -/
def maxRetries : Nat := 3

/-- `delays := [1s, 2s, 4s]`, in milliseconds. -/
def retryDelays : List Nat := [1000, 2000, 4000]

/-- The retry loop of `processUpload`: attempt, short-circuit on success,
sleep `delays[attempt]` when this is not the last attempt, and report the
last error with the attempt count after exhaustion. -/
def retryFrom (uploads : Nat → Option String) (profileName relPath : String) :
    Nat → Nat → Option String → List UploadEvent × UploadOutcome
  | _, 0, lastErr => ([], .failure profileName relPath (lastErr.getD "") maxRetries)
  | attempt, remaining + 1, _ =>
      match uploads attempt with
      | none => ([.attempt (attempt + 1)], .success profileName relPath)
      | some e =>
          let rest := retryFrom uploads profileName relPath (attempt + 1) remaining (some e)
          if attempt < maxRetries - 1 then
            (.attempt (attempt + 1) :: .sleep (retryDelays.getD attempt 0) :: rest.1, rest.2)
          else
            (.attempt (attempt + 1) :: rest.1, rest.2)

/-- `processUpload`: profile lookup, containment check and relative-path
computation, ignore check, then the retry loop. -/
def processUpload (profiles : List (String × WatchProfile)) (patterns : List String)
    (matchesPat : String → List String → Bool) (uploads : Nat → Option String)
    (task : UploadTask) : List UploadEvent × UploadOutcome :=
  match profiles.lookup task.profileName with
  | none => ([], .dropped)
  | some profile =>
      let absFile := task.filePath
      let absContext := profile.context
      let relOpt : Option String :=
        if hasPre absFile (absContext ++ "/") then
          some (absFile.drop (absContext ++ "/").length)
        else if absFile == absContext then
          some (filepathBase absFile)
        else none
      match relOpt with
      | none => ([], .dropped)
      | some relPath =>
          if matchesPat relPath patterns then ([], .dropped)
          else retryFrom uploads task.profileName relPath 0 maxRetries none

/-- C2: for a task that passes the lookup, containment and ignore checks,
the upload is attempted at most 3 times with sleeps of 1s then 2s between
consecutive attempts (delays drawn from the schedule 1s, 2s, 4s) and no
sleep after the final attempt; the first success short-circuits the rest
and fires the success callback with the relative path; three failures fire
the error callback once, with the last error and attempt count 3. -/
theorem claim2_retry_schedule (profiles : List (String × WatchProfile))
    (patterns : List String) (matchesPat : String → List String → Bool)
    (uploads : Nat → Option String) (task : UploadTask) (profile : WatchProfile)
    (hlookup : profiles.lookup task.profileName = some profile)
    (hpre : hasPre task.filePath (profile.context ++ "/") = true)
    (hig : matchesPat (task.filePath.drop (profile.context ++ "/").length) patterns
      = false) :
    (uploads 0 = none →
      processUpload profiles patterns matchesPat uploads task =
        ([.attempt 1],
          .success task.profileName (task.filePath.drop (profile.context ++ "/").length))) ∧
    (∀ e0, uploads 0 = some e0 → uploads 1 = none →
      processUpload profiles patterns matchesPat uploads task =
        ([.attempt 1, .sleep 1000, .attempt 2],
          .success task.profileName (task.filePath.drop (profile.context ++ "/").length))) ∧
    (∀ e0 e1, uploads 0 = some e0 → uploads 1 = some e1 → uploads 2 = none →
      processUpload profiles patterns matchesPat uploads task =
        ([.attempt 1, .sleep 1000, .attempt 2, .sleep 2000, .attempt 3],
          .success task.profileName (task.filePath.drop (profile.context ++ "/").length))) ∧
    (∀ e0 e1 e2, uploads 0 = some e0 → uploads 1 = some e1 → uploads 2 = some e2 →
      processUpload profiles patterns matchesPat uploads task =
        ([.attempt 1, .sleep 1000, .attempt 2, .sleep 2000, .attempt 3],
          .failure task.profileName (task.filePath.drop (profile.context ++ "/").length)
            e2 3)) := by
  have hbase : ∀ r : List UploadEvent × UploadOutcome,
      retryFrom uploads task.profileName
        (task.filePath.drop (profile.context ++ "/").length) 0 maxRetries none = r →
      processUpload profiles patterns matchesPat uploads task = r := by
    intro r hr
    simp only [processUpload, hlookup, hpre, if_true, hig, Bool.false_eq_true, if_false]
    exact hr
  refine ⟨?_, ?_, ?_, ?_⟩
  · intro h0
    exact hbase _ (by simp [retryFrom, maxRetries, h0])
  · intro e0 h0 h1
    exact hbase _ (by simp [retryFrom, maxRetries, retryDelays, h0, h1])
  · intro e0 e1 h0 h1 h2
    exact hbase _ (by simp [retryFrom, maxRetries, retryDelays, h0, h1, h2])
  · intro e0 e1 e2 h0 h1 h2
    exact hbase _ (by simp [retryFrom, maxRetries, retryDelays, h0, h1, h2])

/-- Witness for C2: one registered profile, context "/c", file "/c/a.txt",
failures on the first two attempts and success on the third. -/
theorem claim2_retry_schedule_witness :
    ((fun i => if i < 2 then some "boom" else none : Nat → Option String) 0 = none →
      processUpload [("p", ⟨"/c"⟩)] [] (fun _ _ => false)
          (fun i => if i < 2 then some "boom" else none) ⟨"p", "/c/a.txt"⟩ =
        ([.attempt 1], .success "p" (("/c/a.txt" : String).drop ("/c" ++ "/").length))) ∧
    (∀ e0, (fun i => if i < 2 then some "boom" else none : Nat → Option String) 0 = some e0 →
      (fun i => if i < 2 then some "boom" else none : Nat → Option String) 1 = none →
      processUpload [("p", ⟨"/c"⟩)] [] (fun _ _ => false)
          (fun i => if i < 2 then some "boom" else none) ⟨"p", "/c/a.txt"⟩ =
        ([.attempt 1, .sleep 1000, .attempt 2],
          .success "p" (("/c/a.txt" : String).drop ("/c" ++ "/").length))) ∧
    (∀ e0 e1, (fun i => if i < 2 then some "boom" else none : Nat → Option String) 0 = some e0 →
      (fun i => if i < 2 then some "boom" else none : Nat → Option String) 1 = some e1 →
      (fun i => if i < 2 then some "boom" else none : Nat → Option String) 2 = none →
      processUpload [("p", ⟨"/c"⟩)] [] (fun _ _ => false)
          (fun i => if i < 2 then some "boom" else none) ⟨"p", "/c/a.txt"⟩ =
        ([.attempt 1, .sleep 1000, .attempt 2, .sleep 2000, .attempt 3],
          .success "p" (("/c/a.txt" : String).drop ("/c" ++ "/").length))) ∧
    (∀ e0 e1 e2,
      (fun i => if i < 2 then some "boom" else none : Nat → Option String) 0 = some e0 →
      (fun i => if i < 2 then some "boom" else none : Nat → Option String) 1 = some e1 →
      (fun i => if i < 2 then some "boom" else none : Nat → Option String) 2 = some e2 →
      processUpload [("p", ⟨"/c"⟩)] [] (fun _ _ => false)
          (fun i => if i < 2 then some "boom" else none) ⟨"p", "/c/a.txt"⟩ =
        ([.attempt 1, .sleep 1000, .attempt 2, .sleep 2000, .attempt 3],
          .failure "p" (("/c/a.txt" : String).drop ("/c" ++ "/").length) e2 3)) :=
  claim2_retry_schedule [("p", ⟨"/c"⟩)] [] (fun _ _ => false)
    (fun i => if i < 2 then some "boom" else none) ⟨"p", "/c/a.txt"⟩ ⟨"/c"⟩
    rfl rfl rfl

/-- C6: a dequeued task whose file is neither strictly under the profile's
context nor equal to it, or whose relative path matches an ignore pattern,
is dropped with no upload attempt, no sleep and no callback. -/
theorem claim6_containment_and_ignore (profiles : List (String × WatchProfile))
    (patterns : List String) (matchesPat : String → List String → Bool)
    (uploads : Nat → Option String) (task : UploadTask) (profile : WatchProfile)
    (hlookup : profiles.lookup task.profileName = some profile) :
    (hasPre task.filePath (profile.context ++ "/") = false →
      (task.filePath == profile.context) = false →
      processUpload profiles patterns matchesPat uploads task = ([], .dropped)) ∧
    (hasPre task.filePath (profile.context ++ "/") = true →
      matchesPat (task.filePath.drop (profile.context ++ "/").length) patterns = true →
      processUpload profiles patterns matchesPat uploads task = ([], .dropped)) ∧
    (hasPre task.filePath (profile.context ++ "/") = false →
      (task.filePath == profile.context) = true →
      matchesPat (filepathBase task.filePath) patterns = true →
      processUpload profiles patterns matchesPat uploads task = ([], .dropped)) := by
  refine ⟨?_, ?_, ?_⟩
  · intro hp he
    simp only [processUpload, hlookup, hp, Bool.false_eq_true, if_false, he]
  · intro hp hig
    simp only [processUpload, hlookup, hp, eq_self_iff_true, if_true]
    rw [if_pos hig]
  · intro hp he hig
    simp only [processUpload, hlookup, hp, Bool.false_eq_true, if_false, he,
      eq_self_iff_true, if_true]
    rw [if_pos hig]

/-- Witness for C6: containment violation for "/other/a.txt" against
context "/c", ignore match for "/c/a.log" with an always-true matcher, and
the context-equality branch with an always-true matcher. -/
theorem claim6_containment_and_ignore_witness :
    ((hasPre "/other/a.txt" ("/c" ++ "/") = false →
      (("/other/a.txt" : String) == "/c") = false →
      processUpload [("p", ⟨"/c"⟩)] ["*.log"] (fun _ _ => true) (fun _ => none)
        ⟨"p", "/other/a.txt"⟩ = ([], .dropped)) ∧
    (hasPre "/other/a.txt" ("/c" ++ "/") = true →
      (fun (_ : String) (_ : List String) => true)
        (("/other/a.txt" : String).drop ("/c" ++ "/").length) ["*.log"] = true →
      processUpload [("p", ⟨"/c"⟩)] ["*.log"] (fun _ _ => true) (fun _ => none)
        ⟨"p", "/other/a.txt"⟩ = ([], .dropped)) ∧
    (hasPre "/other/a.txt" ("/c" ++ "/") = false →
      (("/other/a.txt" : String) == "/c") = true →
      (fun (_ : String) (_ : List String) => true) (filepathBase "/other/a.txt") ["*.log"]
        = true →
      processUpload [("p", ⟨"/c"⟩)] ["*.log"] (fun _ _ => true) (fun _ => none)
        ⟨"p", "/other/a.txt"⟩ = ([], .dropped))) ∧
    processUpload [("p", ⟨"/c"⟩)] ["*.log"] (fun _ _ => true) (fun _ => none)
      ⟨"p", "/c/a.log"⟩ = ([], .dropped) :=
  ⟨claim6_containment_and_ignore [("p", ⟨"/c"⟩)] ["*.log"] (fun _ _ => true)
      (fun _ => none) ⟨"p", "/other/a.txt"⟩ ⟨"/c"⟩ rfl,
    (claim6_containment_and_ignore [("p", ⟨"/c"⟩)] ["*.log"] (fun _ _ => true)
      (fun _ => none) ⟨"p", "/c/a.log"⟩ ⟨"/c"⟩ rfl).2.1 rfl rfl⟩

/-! ## syncignore (internal/syncignore/syncignore.go)

`Load` reads the `.syncignore` of the context, keeps the trimmed non-empty,
non-comment lines without `"***"` in order, and appends the literal
`".syncignore"`.  The file content is a parameter (`none` when the file
does not exist, `some lines` otherwise; the claim assumes a readable
file).  `ShouldIgnore` loops over the patterns, testing the doublestar
match plus the derived `**/`, directory and root-only checks;
the doublestar matcher is the external parameter `dsMatch`, with a match
error folded into `false` (the code skips the pattern).  `ToSlash` is the
identity on the slash paths used here.  Structural helpers replace the Go
string functions so that everything evaluates. -/

/-- Go `strings.HasSuffix`. -/
def hasSuf (s suf : String) : Bool :=
  suf.data.isSuffixOf s.data

/-- Whether `sub` occurs inside `l` (Go `strings.Contains` on chars). -/
def listHasSeq (sub : List Char) : List Char → Bool
  | [] => sub.isEmpty
  | c :: rest => sub.isPrefixOf (c :: rest) || listHasSeq sub rest

/-- Go `strings.Contains`. -/
def strContains (s sub : String) : Bool :=
  listHasSeq sub.data s.data

/-- Go `strings.TrimSpace` (whitespace per `Char.isWhitespace`). -/
def goTrimSpace (s : String) : String :=
  ⟨((s.data.dropWhile Char.isWhitespace).reverse.dropWhile Char.isWhitespace).reverse⟩

/-- Go `strings.TrimSuffix`. -/
def trimSufStr (s suf : String) : String :=
  if hasSuf s suf then ⟨s.data.take (s.data.length - suf.data.length)⟩ else s

/-- Go `strings.TrimPrefix` (drop the leading match, if present). -/
def dropPreStr (s pre : String) : String :=
  if hasPre s pre then ⟨s.data.drop pre.data.length⟩ else s

/-- The body of the `Load` scan for one raw line: trim, skip empty lines,
comments and patterns containing `"***"`. -/
def keepLine (line : String) : Option String :=
  let t := goTrimSpace line
  if t = "" then none
  else if hasPre t "#" then none
  else if strContains t "***" then none
  else some t

/-- `Load`: no file means no patterns (and no error); otherwise the kept
lines in file order with `".syncignore"` appended. -/
def loadSyncignore (file : Option (List String)) : List String :=
  match file with
  | none => []
  | some lines => lines.filterMap keepLine ++ [".syncignore"]

/-- The per-pattern test of `ShouldIgnore`: the four checks of the loop
body, in order. -/
def ignoreCheck (dsMatch : String → String → Bool) (relativePath pattern : String) :
    Bool :=
  dsMatch pattern relativePath ||
  (!(hasPre pattern "**/") && !(hasPre pattern "/") &&
    dsMatch ("**/" ++ pattern) relativePath) ||
  (hasSuf pattern "/" &&
    (hasPre relativePath (trimSufStr pattern "/" ++ "/") ||
      (!(hasPre (trimSufStr pattern "/") "**/") && !(hasPre (trimSufStr pattern "/") "/") &&
        hasPre relativePath ("**/" ++ trimSufStr pattern "/" ++ "/")))) ||
  (hasPre pattern "/" && relativePath == dropPreStr pattern "/")

/-- `ShouldIgnore`: true when the check of some pattern succeeds (the loop
returns on the first hit). -/
def shouldIgnorePath (dsMatch : String → String → Bool) (relativePath : String)
    (patterns : List String) : Bool :=
  patterns.any (ignoreCheck dsMatch relativePath)

/-- C10: `Load` of a missing file is the empty pattern list (no error);
`Load` of an existing file keeps exactly the trimmed non-empty,
non-comment, non-`"***"` lines in order and appends the literal
`".syncignore"` as the final element, so for any doublestar matcher that
matches the literal pattern `".syncignore"` against the path
`".syncignore"`, the loaded patterns always ignore the `.syncignore` file
itself. -/
theorem claim10_load_syncignore (lines : List String)
    (dsMatch : String → String → Bool)
    (hds : dsMatch ".syncignore" ".syncignore" = true) :
    loadSyncignore none = [] ∧
    loadSyncignore (some lines) =
      (lines.filterMap fun line =>
        let t := goTrimSpace line
        if t ≠ "" ∧ hasPre t "#" = false ∧ strContains t "***" = false
        then some t else none) ++ [".syncignore"] ∧
    (loadSyncignore (some lines)).getLast? = some ".syncignore" ∧
    shouldIgnorePath dsMatch ".syncignore" (loadSyncignore (some lines)) = true := by
  refine ⟨rfl, ?_, ?_, ?_⟩
  · simp only [loadSyncignore]
    congr 1
    apply List.filterMap_congr
    intro line _
    unfold keepLine
    by_cases h1 : goTrimSpace line = ""
    · simp [h1]
    · by_cases h2 : hasPre (goTrimSpace line) "#" = true
      · simp [h1, h2]
      · by_cases h3 : strContains (goTrimSpace line) "***" = true
        · simp [h1, h2, h3]
        · simp [h1, h2, h3]
  · simp only [loadSyncignore]
    rw [List.getLast?_concat]
  · simp only [shouldIgnorePath, loadSyncignore]
    rw [List.any_eq_true]
    refine ⟨".syncignore", List.mem_append_right _ (List.mem_singleton.mpr rfl), ?_⟩
    unfold ignoreCheck
    rw [hds]
    rfl

/-- Witness for C10 with a literal-equality matcher and the lines
`["*.log", "", "# comment", "a***b", "  dist/  "]` (kept: `"*.log"` and
`"dist/"`). -/
theorem claim10_load_syncignore_witness :
    loadSyncignore none = [] ∧
    loadSyncignore (some ["*.log", "", "# comment", "a***b", "  dist/  "]) =
      ((["*.log", "", "# comment", "a***b", "  dist/  "] : List String).filterMap
        fun line =>
          let t := goTrimSpace line
          if t ≠ "" ∧ hasPre t "#" = false ∧ strContains t "***" = false
          then some t else none) ++ [".syncignore"] ∧
    (loadSyncignore (some ["*.log", "", "# comment", "a***b", "  dist/  "])).getLast?
      = some ".syncignore" ∧
    shouldIgnorePath (fun p s => p == s) ".syncignore"
      (loadSyncignore (some ["*.log", "", "# comment", "a***b", "  dist/  "])) = true :=
  claim10_load_syncignore ["*.log", "", "# comment", "a***b", "  dist/  "]
    (fun p s => p == s) rfl

/-! ## Watch / Unwatch (internal/watcher/watcher.go)

`Watch` checks that the context exists, then stores the profile snapshot
and callback, then recursively subscribes the context tree (skipping
symlinks).  The filesystem is a parameter: `ctxExists` is the `os.Stat`
check, `walkDirs ctx` the non-symlink directories the walk subscribes
before returning, and `walkErr ctx` the error `addRecursive` returns, if
any.  Note the source order: the registration is stored *before*
`addRecursive` runs, and it is not rolled back when the walk fails. -/

structure FSModel where
  ctxExists : String → Bool
  walkDirs : String → List String
  walkErr : String → Option String

structure WatcherState where
  profiles : String → Option String
  callbacks : String → Bool
  subscribed : List String

def emptyWatcher : WatcherState := ⟨fun _ => none, fun _ => false, []⟩

inductive WatchErr where
  | contextMissing
  | walkFailed (msg : String)
  | notWatched
deriving DecidableEq, Repr

/-- `Watch`: fail if the context does not exist; otherwise store the
registration, then walk and subscribe, returning the walk error if the
walk failed (registration left in place, as in the source). -/
def watch (fs : FSModel) (w : WatcherState) (name ctx : String) :
    WatcherState × Option WatchErr :=
  if fs.ctxExists ctx = false then (w, some .contextMissing)
  else
    let w1 : WatcherState :=
      { profiles := fun q => if q = name then some ctx else w.profiles q,
        callbacks := fun q => if q = name then true else w.callbacks q,
        subscribed := w.subscribed ++ fs.walkDirs ctx }
    match fs.walkErr ctx with
    | some e => (w1, some (.walkFailed e))
    | none => (w1, none)

/-- `Unwatch`: fail exactly when the name is not registered; otherwise
unsubscribe the context tree and remove the registration. -/
def unwatch (fs : FSModel) (w : WatcherState) (name : String) :
    WatcherState × Option WatchErr :=
  match w.profiles name with
  | none => (w, some .notWatched)
  | some ctx =>
      ({ profiles := fun q => if q = name then none else w.profiles q,
         callbacks := fun q => if q = name then false else w.callbacks q,
         subscribed := w.subscribed.filter fun d => !((fs.walkDirs ctx).contains d) },
        none)

/-- C8 (amended): `Watch` errors and changes nothing when the context does
not exist; when the context exists it stores the registration (touching no
other name) and subscribes the walked directories, and returns no error
exactly when the recursive walk succeeded — on a walk failure the error is
returned but the registration remains (source order: store first, walk
second).  `Unwatch` errors exactly when the name is not registered,
changes nothing in that case, and otherwise removes the registration with
no error. -/
theorem claim8_watch_unwatch (fs : FSModel) (w : WatcherState) (name ctx : String) :
    (fs.ctxExists ctx = false → watch fs w name ctx = (w, some .contextMissing)) ∧
    (fs.ctxExists ctx = true →
      (watch fs w name ctx).1.profiles name = some ctx ∧
      (watch fs w name ctx).1.callbacks name = true ∧
      (watch fs w name ctx).1.subscribed = w.subscribed ++ fs.walkDirs ctx ∧
      ((watch fs w name ctx).2 = none ↔ fs.walkErr ctx = none)) ∧
    (∀ q, q ≠ name → (watch fs w name ctx).1.profiles q = w.profiles q) ∧
    ((unwatch fs w name).2.isSome = true ↔ w.profiles name = none) ∧
    (w.profiles name = none → unwatch fs w name = (w, some .notWatched)) ∧
    (∀ c, w.profiles name = some c →
      (unwatch fs w name).1.profiles name = none ∧
      (unwatch fs w name).1.callbacks name = false ∧
      (unwatch fs w name).2 = none) := by
  refine ⟨?_, ?_, ?_, ?_, ?_, ?_⟩
  · intro h
    simp [watch, h]
  · intro h
    unfold watch
    rw [h]
    simp only [Bool.true_eq_false, if_false]
    cases he : fs.walkErr ctx with
    | some e => simp [he]
    | none => simp [he]
  · intro q hq
    unfold watch
    by_cases h : fs.ctxExists ctx = false
    · rw [if_pos h]
    · rw [if_neg h]
      cases he : fs.walkErr ctx with
      | some e => simp [he, hq]
      | none => simp [he, hq]
  · unfold unwatch
    cases hp : w.profiles name with
    | none => simp [hp]
    | some c => simp [hp]
  · intro hp
    unfold unwatch
    rw [hp]
  · intro c hp
    unfold unwatch
    rw [hp]
    simp

/-- Witness for C8 on a filesystem where "/c" exists and walks cleanly and
"/gone" does not exist, from the empty watcher state after registering
profile "q" at "/c". -/
theorem claim8_watch_unwatch_witness :
    (((⟨fun c => c == "/c", fun c => [c], fun _ => none⟩ : FSModel).ctxExists "/gone"
        = false →
      watch ⟨fun c => c == "/c", fun c => [c], fun _ => none⟩
          (watch ⟨fun c => c == "/c", fun c => [c], fun _ => none⟩ emptyWatcher "q" "/c").1
          "p" "/gone"
        = ((watch ⟨fun c => c == "/c", fun c => [c], fun _ => none⟩ emptyWatcher "q" "/c").1,
            some .contextMissing)) ∧
    (((⟨fun c => c == "/c", fun c => [c], fun _ => none⟩ : FSModel).ctxExists "/gone"
        = true) →
      (watch ⟨fun c => c == "/c", fun c => [c], fun _ => none⟩
          (watch ⟨fun c => c == "/c", fun c => [c], fun _ => none⟩ emptyWatcher "q" "/c").1
          "p" "/gone").1.profiles "p" = some "/gone" ∧
      (watch ⟨fun c => c == "/c", fun c => [c], fun _ => none⟩
          (watch ⟨fun c => c == "/c", fun c => [c], fun _ => none⟩ emptyWatcher "q" "/c").1
          "p" "/gone").1.callbacks "p" = true ∧
      (watch ⟨fun c => c == "/c", fun c => [c], fun _ => none⟩
          (watch ⟨fun c => c == "/c", fun c => [c], fun _ => none⟩ emptyWatcher "q" "/c").1
          "p" "/gone").1.subscribed =
        (watch ⟨fun c => c == "/c", fun c => [c], fun _ => none⟩ emptyWatcher
          "q" "/c").1.subscribed ++
          (⟨fun c => c == "/c", fun c => [c], fun _ => none⟩ : FSModel).walkDirs "/gone" ∧
      ((watch ⟨fun c => c == "/c", fun c => [c], fun _ => none⟩
          (watch ⟨fun c => c == "/c", fun c => [c], fun _ => none⟩ emptyWatcher "q" "/c").1
          "p" "/gone").2 = none ↔
        (⟨fun c => c == "/c", fun c => [c], fun _ => none⟩ : FSModel).walkErr "/gone"
          = none)) ∧
    (∀ q, q ≠ "p" →
      (watch ⟨fun c => c == "/c", fun c => [c], fun _ => none⟩
          (watch ⟨fun c => c == "/c", fun c => [c], fun _ => none⟩ emptyWatcher "q" "/c").1
          "p" "/gone").1.profiles q =
        (watch ⟨fun c => c == "/c", fun c => [c], fun _ => none⟩ emptyWatcher
          "q" "/c").1.profiles q) ∧
    ((unwatch ⟨fun c => c == "/c", fun c => [c], fun _ => none⟩
        (watch ⟨fun c => c == "/c", fun c => [c], fun _ => none⟩ emptyWatcher "q" "/c").1
        "p").2.isSome = true ↔
      (watch ⟨fun c => c == "/c", fun c => [c], fun _ => none⟩ emptyWatcher
        "q" "/c").1.profiles "p" = none) ∧
    ((watch ⟨fun c => c == "/c", fun c => [c], fun _ => none⟩ emptyWatcher
        "q" "/c").1.profiles "p" = none →
      unwatch ⟨fun c => c == "/c", fun c => [c], fun _ => none⟩
          (watch ⟨fun c => c == "/c", fun c => [c], fun _ => none⟩ emptyWatcher "q" "/c").1
          "p"
        = ((watch ⟨fun c => c == "/c", fun c => [c], fun _ => none⟩ emptyWatcher
            "q" "/c").1, some .notWatched)) ∧
    (∀ c, (watch ⟨fun c => c == "/c", fun c => [c], fun _ => none⟩ emptyWatcher
        "q" "/c").1.profiles "p" = some c →
      (unwatch ⟨fun c => c == "/c", fun c => [c], fun _ => none⟩
          (watch ⟨fun c => c == "/c", fun c => [c], fun _ => none⟩ emptyWatcher "q" "/c").1
          "p").1.profiles "p" = none ∧
      (unwatch ⟨fun c => c == "/c", fun c => [c], fun _ => none⟩
          (watch ⟨fun c => c == "/c", fun c => [c], fun _ => none⟩ emptyWatcher "q" "/c").1
          "p").1.callbacks "p" = false ∧
      (unwatch ⟨fun c => c == "/c", fun c => [c], fun _ => none⟩
          (watch ⟨fun c => c == "/c", fun c => [c], fun _ => none⟩ emptyWatcher "q" "/c").1
          "p").2 = none)) :=
  claim8_watch_unwatch ⟨fun c => c == "/c", fun c => [c], fun _ => none⟩
    (watch ⟨fun c => c == "/c", fun c => [c], fun _ => none⟩ emptyWatcher "q" "/c").1
    "p" "/gone"

/-- C8 counterexample: a context that exists but whose recursive walk
fails.  `Watch` returns an error, yet the registration for the profile
name is present afterwards — refuting the claim that after a `Watch` that
returns an error no registration exists. -/
theorem claim8_counterexample :
    (watch ⟨fun _ => true, fun c => [c], fun _ => some "permission denied"⟩
        emptyWatcher "p" "/ctx").2 = some (.walkFailed "permission denied") ∧
    (watch ⟨fun _ => true, fun c => [c], fun _ => some "permission denied"⟩
        emptyWatcher "p" "/ctx").1.profiles "p" = some "/ctx" := by
  exact ⟨rfl, rfl⟩

end SftpSync
